import Mathlib

/-!
Shallow embedding of the OpenChamp MMServer connection layer:
the websocket client hub (`ClientManager.run`), the per-connection
authentication handlers (`handlePacket`, `handleAuthentication`,
`handleRegistration`, `validateToken`) and the persistence schema
created by `database.SetupDatabase`.

Database rows are modelled as Lean structures, the database itself as
explicit state (`DBState`), time as a natural number of seconds, and
fallible database calls via an explicit failure schedule.  Outbound
messages become a list of `Response` values, database traffic a trace
of `DBOp` values.
-/

namespace MMServer

/-- A row of the `users` table (`database.SetupDatabase`). -/
structure UserRow where
  id : Nat
  username : String
  passwordHash : String
  email : String
  deriving Repr, DecidableEq

/-- A row of the `auth_tokens` table (`database.SetupDatabase`).
`ipAddress` and `lastUsedAt` are nullable columns. -/
structure TokenRow where
  id : Nat
  userId : Nat
  token : String
  ipAddress : Option String
  createdAt : Nat
  expiresAt : Nat
  lastUsedAt : Option Nat
  isRevoked : Bool
  deriving Repr, DecidableEq

/-- The persistent store: both tables plus the serial counters. -/
structure DBState where
  users : List UserRow
  tokens : List TokenRow
  nextUserId : Nat
  nextTokenId : Nat
  deriving Repr, DecidableEq

/-- Declared constraints of one column in the DDL. -/
structure ColumnSpec where
  name : String
  uniqueCol : Bool
  notNull : Bool
  deriving Repr, DecidableEq

/-- Columns of `users` as declared in `database.SetupDatabase`:
`id SERIAL PRIMARY KEY`, `username VARCHAR(50) UNIQUE NOT NULL`,
`password_hash VARCHAR(255) NOT NULL`, `email VARCHAR(255) UNIQUE`,
`created_at TIMESTAMP NOT NULL DEFAULT NOW()`, `last_login TIMESTAMP`. -/
def usersColumns : List ColumnSpec :=
  [⟨"id", true, true⟩,
   ⟨"username", true, true⟩,
   ⟨"password_hash", false, true⟩,
   ⟨"email", true, false⟩,
   ⟨"created_at", false, true⟩,
   ⟨"last_login", false, false⟩]

/-- `INTERVAL '7 days'` in seconds. -/
def sevenDays : Nat := 7 * 24 * 60 * 60

/-- One flag per database call site; a set flag makes that call return a
database error, modelling an unreachable store or exceeded deadline. -/
structure FailureSchedule where
  usernameExistsFails : Bool
  emailExistsFails : Bool
  hashFails : Bool
  insertUserFails : Bool
  getUserIdFails : Bool
  insertTokenFails : Bool
  lookupTokenFails : Bool
  touchTokenFails : Bool
  deriving Repr, DecidableEq

/-- The schedule on which every call succeeds. -/
def noFailures : FailureSchedule :=
  ⟨false, false, false, false, false, false, false, false⟩

/-- The authentication-relevant state of a `Client` struct:
`username`, `authenticated`, `authToken`. -/
structure Client where
  username : String
  authenticated : Bool
  authToken : String
  deriving Repr, DecidableEq

/-- A freshly upgraded connection (`handleWebSocketConnection` leaves the
auth fields at their zero values). -/
def newClient : Client := ⟨"", false, ""⟩

/-- One outbound JSON envelope pushed on the client's send queue. -/
inductive Response where
  | errorMsg (subtype message : String)
  | authSuccess (username token : String)
  | registerSuccess (success : Bool) (message : String) (autoLogin : Bool)
      (username token : Option String)
  deriving Repr, DecidableEq

/-- One database query or statement issued by a handler. -/
inductive DBOp where
  | checkUsernameExists (username : String)
  | checkEmailExists (email : String)
  | insertUser (username passwordHash email : String)
  | getUserId (username : String)
  | insertToken (userId : Nat) (token ip : String) (createdAt expiresAt : Nat)
  | lookupToken (token : String)
  | touchToken (tokenId : Nat) (ip : String)
  deriving Repr, DecidableEq

/-- Whether a database operation writes to the store. -/
def DBOp.isWrite : DBOp → Bool
  | .insertUser _ _ _ => true
  | .insertToken _ _ _ _ _ => true
  | .touchToken _ _ => true
  | _ => false

/-- Common result of one inbound-message handler: responses sent on the
client's queue, the database trace, the client's new auth state and the
new store contents. -/
structure StepResult where
  responses : List Response
  ops : List DBOp
  client : Client
  db : DBState
  deriving Repr, DecidableEq

/-! ### util.IsValidEmail

The Go source matches the whole string against
`^[A-z0-9._%+-]+@[a-z0-9.-]+\.[a-z]{2,}$`.  Note `[A-z]` spans all
ASCII codes 65..122, which includes the characters between `Z` and `a`.
-/

/-- Membership in the local-part class `[A-z0-9._%+-]`. -/
def inLocalClass (c : Char) : Bool :=
  (65 ≤ c.toNat && c.toNat ≤ 122) || c.isDigit ||
    c == '.' || c == '_' || c == '%' || c == '+' || c == '-'

/-- Membership in the domain class `[a-z0-9.-]`. -/
def inDomainClass (c : Char) : Bool :=
  c.isLower || c.isDigit || c == '.' || c == '-'

/-- Matches `[a-z0-9.-]+\.[a-z]{2,}` against a whole string: everything
after the last dot is the letters-only suffix, everything before it must
be a nonempty run of domain-class characters. -/
def domainMatch (d : String) : Bool :=
  let rcs := d.data.reverse
  let rtld := rcs.takeWhile Char.isLower
  2 ≤ rtld.length &&
    (match rcs.drop rtld.length with
     | '.' :: rpre => !rpre.isEmpty && rpre.all inDomainClass
     | _ => false)

/-- Embedding of `util.IsValidEmail`: full-string match of
`^[A-z0-9._%+-]+@[a-z0-9.-]+\.[a-z]{2,}$`.  Since `@` belongs to neither
character class, a match decomposes at the unique `@`. -/
def IsValidEmail (email : String) : Bool :=
  match email.splitOn "@" with
  | [localPart, domainPart] =>
      !localPart.isEmpty && localPart.data.all inLocalClass &&
        domainMatch domainPart
  | _ => false

/-! ### Registration (`handleRegistration`, `sendRegistrationSuccess`) -/

/-- The struct `handleRegistration` unmarshals its payload into. -/
structure RegistrationInput where
  username : String
  password : String
  email : String
  deriving Repr, DecidableEq

/-- Embedding of `sendRegistrationSuccess`: `success` is always true,
`username`/`token` fields are present only when `autoLogin` is. -/
def sendRegistrationSuccess (autoLogin : Bool) (username token : String) :
    Response :=
  .registerSuccess true "Registration successful" autoLogin
    (if autoLogin then some username else none)
    (if autoLogin then some token else none)

/-- The generic persistence-error reply used throughout registration. -/
def regServerError : Response :=
  .errorMsg "registration_error" "Registration failed due to a server error"

/-- The phase of `handleRegistration` after all validation and uniqueness
checks passed: hash the password, insert the user row, then attempt the
auto-login token (user-id lookup followed by token insert).  `newToken`
stands for the generated UUID, `now` for `NOW()`. -/
def registrationInsert (fs : FailureSchedule) (hashFn : String → String)
    (newToken clientIP : String) (now : Nat) (c : Client) (db : DBState)
    (reg : RegistrationInput) (ops : List DBOp) : StepResult :=
  if fs.hashFails then ⟨[regServerError], ops, c, db⟩
  else
    let passwordHash := hashFn reg.password
    let ops1 := ops ++ [.insertUser reg.username passwordHash reg.email]
    if fs.insertUserFails then ⟨[regServerError], ops1, c, db⟩
    else
      let newUser : UserRow := ⟨db.nextUserId, reg.username, passwordHash, reg.email⟩
      let db1 : DBState :=
        ⟨db.users ++ [newUser], db.tokens, db.nextUserId + 1, db.nextTokenId⟩
      let ops2 := ops1 ++ [.getUserId reg.username]
      if fs.getUserIdFails then
        ⟨[sendRegistrationSuccess false "" ""], ops2, c, db1⟩
      else
        match db1.users.find? (fun u => u.username == reg.username) with
        | none => ⟨[sendRegistrationSuccess false "" ""], ops2, c, db1⟩
        | some u =>
          let ops3 := ops2 ++
            [.insertToken u.id newToken clientIP now (now + sevenDays)]
          if fs.insertTokenFails then
            ⟨[sendRegistrationSuccess false "" ""], ops3, c, db1⟩
          else
            let row : TokenRow :=
              ⟨db1.nextTokenId, u.id, newToken, some clientIP, now,
               now + sevenDays, none, false⟩
            let db2 : DBState :=
              ⟨db1.users, db1.tokens ++ [row], db1.nextUserId, db1.nextTokenId + 1⟩
            ⟨[sendRegistrationSuccess true reg.username newToken], ops3,
             ⟨reg.username, true, newToken⟩, db2⟩

/-- Embedding of `handleRegistration`.  `payload` is the result of
unmarshalling the envelope payload (`none` on malformed JSON).  Length
checks are on byte length, as Go's `len` is. -/
def handleRegistration (fs : FailureSchedule) (hashFn : String → String)
    (newToken clientIP : String) (now : Nat) (c : Client) (db : DBState)
    (payload : Option RegistrationInput) : StepResult :=
  match payload with
  | none =>
      ⟨[.errorMsg "registration_error" "Invalid registration format"], [], c, db⟩
  | some reg =>
    if reg.username.utf8ByteSize < 3 then
      ⟨[.errorMsg "registration_error" "Username must be at least 3 characters"],
       [], c, db⟩
    else if reg.password.utf8ByteSize < 6 then
      ⟨[.errorMsg "registration_error" "Password must be at least 6 characters"],
       [], c, db⟩
    else if reg.email ≠ "" ∧ IsValidEmail reg.email = false then
      ⟨[.errorMsg "registration_error" "Invalid email format"], [], c, db⟩
    else
      let ops1 : List DBOp := [.checkUsernameExists reg.username]
      if fs.usernameExistsFails then ⟨[regServerError], ops1, c, db⟩
      else if db.users.any (fun u => u.username == reg.username) then
        ⟨[.errorMsg "registration_error" "Username already exists"], ops1, c, db⟩
      else if reg.email ≠ "" then
        let ops2 := ops1 ++ [.checkEmailExists reg.email]
        if fs.emailExistsFails then ⟨[regServerError], ops2, c, db⟩
        else if db.users.any (fun u => u.email == reg.email) then
          ⟨[.errorMsg "registration_error" "Email already registered"], ops2, c, db⟩
        else registrationInsert fs hashFn newToken clientIP now c db reg ops2
      else registrationInsert fs hashFn newToken clientIP now c db reg ops1

/-! ### Token validation (`validateToken`) -/

/-- Result of `validateToken`: `(username, valid, err)` plus the observable
warning log event, the database trace and the updated store. -/
structure TokenValidation where
  username : String
  valid : Bool
  dbErr : Bool
  warnLogged : Bool
  ops : List DBOp
  db : DBState
  deriving Repr, DecidableEq

/-- The `SELECT ... FROM auth_tokens t JOIN users u ON t.user_id = u.id
WHERE t.token = $1 AND t.expires_at > NOW()` lookup: the first matching
non-expired token row, joined with its owning user. -/
def lookupToken (db : DBState) (now : Nat) (token : String) :
    Option (TokenRow × UserRow) :=
  (db.tokens.find? (fun t => t.token == token && decide (now < t.expiresAt))).bind
    (fun t => (db.users.find? (fun u => u.id == t.userId)).map (fun u => (t, u)))

/-- Embedding of `validateToken`: look the token up (not found or expired
is not an error, just invalid); on a stored, nonempty ip differing from
the caller's a warning is logged but nothing is rejected; finally
`last_used_at` and `ip_address` are updated unconditionally, a failure of
that update being non-critical. -/
def validateToken (fs : FailureSchedule) (db : DBState) (now : Nat)
    (token clientIP : String) : TokenValidation :=
  if fs.lookupTokenFails then ⟨"", false, true, false, [.lookupToken token], db⟩
  else
    match lookupToken db now token with
    | none => ⟨"", false, false, false, [.lookupToken token], db⟩
    | some (t, u) =>
      let warn : Bool :=
        match t.ipAddress with
        | some stored => !(stored == "") && !(stored == clientIP)
        | none => false
      let ops : List DBOp := [.lookupToken token, .touchToken t.id clientIP]
      if fs.touchTokenFails then ⟨u.username, true, false, warn, ops, db⟩
      else
        let db1 : DBState :=
          ⟨db.users,
           db.tokens.map (fun x =>
             if x.id == t.id then
               ⟨x.id, x.userId, x.token, some clientIP, x.createdAt,
                x.expiresAt, some now, x.isRevoked⟩
             else x),
           db.nextUserId, db.nextTokenId⟩
        ⟨u.username, true, false, warn, ops, db1⟩

/-! ### Authentication handlers -/

/-- The struct the `login` branch unmarshals its payload into. -/
structure Credentials where
  username : String
  password : String
  deriving Repr, DecidableEq

/-- The struct the `token_auth` branches declare for their payload. -/
structure TokenAuthPayload where
  token : String
  deriving Repr, DecidableEq

/-- An inbound envelope after JSON decoding: the `type` field together
with the result each handler would get from unmarshalling the raw
payload into its own struct (`none` when that unmarshal fails). -/
structure MessageEnvelope where
  type : String
  loginPayload : Option Credentials
  tokenPayload : Option TokenAuthPayload
  regPayload : Option RegistrationInput
  deriving Repr, DecidableEq

/-- Embedding of `completeAuthentication`: set the auth fields and emit
`auth_success{username, token}`. -/
def completeAuthentication (c : Client) (username token : String) :
    Client × Response :=
  (⟨username, true, token⟩, .authSuccess username token)

/-- Modelled from the spec: `sendAuthError` is called by
`handleAuthentication` but its definition is not part of the provided
source.  Per the spec it emits a generic authentication error envelope
`error{subtype, message}` and touches no other state. -/
def sendAuthError (message : String) : Response :=
  .errorMsg "auth_error" message

/-- Modelled from the spec: `validateCredentials` is called by
`handleAuthentication` but its definition is not part of the provided
source.  Per the spec (login transition): verify the password against
the stored bcrypt hash (`verify password hash`); on lookup failure or
mismatch report not authenticated; on match issue a new opaque token
bound to the user id and client IP with expiry now + 7 days.  Returns
(authenticated, token, err, updated store). -/
def validateCredentials (fs : FailureSchedule) (verify : String → String → Bool)
    (newToken clientIP : String) (now : Nat) (db : DBState)
    (username password : String) : Bool × String × Bool × DBState :=
  match db.users.find? (fun u => u.username == username) with
  | none => (false, "", false, db)
  | some u =>
    if verify password u.passwordHash then
      if fs.insertTokenFails then (false, "", true, db)
      else
        let row : TokenRow :=
          ⟨db.nextTokenId, u.id, newToken, some clientIP, now,
           now + sevenDays, none, false⟩
        (true, newToken,  false,
         ⟨db.users, db.tokens ++ [row], db.nextUserId, db.nextTokenId + 1⟩)
    else (false, "", false, db)

/-- Embedding of `handleAuthentication`: a switch on the envelope type
handling `login` and `token_auth`; any other type falls through with no
effect.  (Note the `token_auth` case here does unmarshal its payload —
but `handlePacket` never dispatches `token_auth` to this function.) -/
def handleAuthentication (fs : FailureSchedule) (verify : String → String → Bool)
    (newToken clientIP : String) (now : Nat) (c : Client) (db : DBState)
    (msg : MessageEnvelope) : StepResult :=
  if msg.type == "login" then
    match msg.loginPayload with
    | none => ⟨[.errorMsg "" "Invalid login format"], [], c, db⟩
    | some cred =>
      match validateCredentials fs verify newToken clientIP now db
          cred.username cred.password with
      | (authenticated, token, err, db1) =>
        if err || !authenticated then
          ⟨[sendAuthError "Invalid username or password"], [], c, db1⟩
        else
          match completeAuthentication c cred.username token with
          | (c1, resp) => ⟨[resp], [], c1, db1⟩
  else if msg.type == "token_auth" then
    match msg.tokenPayload with
    | none => ⟨[sendAuthError "Invalid token format"], [], c, db⟩
    | some tp =>
      let v := validateToken fs db now tp.token clientIP
      if v.dbErr || !v.valid then
        ⟨[sendAuthError "Invalid or expired token"], v.ops, c, v.db⟩
      else
        match completeAuthentication c v.username tp.token with
        | (c1, resp) => ⟨[resp], v.ops, c1, v.db⟩
  else ⟨[], [], c, db⟩

/-- Embedding of `handlePacket`.  `frame` is `none` when the inbound
frame fails to decode as a `{type, payload}` envelope: that case is
logged only and the zero-valued message falls through the switch.  The
inline `token_auth` case declares its payload struct but never
unmarshals the payload, so the token it validates is always the zero
value `""`. -/
def handlePacket (fs : FailureSchedule) (verify : String → String → Bool)
    (hashFn : String → String) (newToken clientIP : String) (now : Nat)
    (c : Client) (db : DBState) (frame : Option MessageEnvelope) : StepResult :=
  match frame with
  | none => ⟨[], [], c, db⟩
  | some msg =>
    if msg.type == "login" then
      handleAuthentication fs verify newToken clientIP now c db msg
    else if msg.type == "register" then
      handleRegistration fs hashFn newToken clientIP now c db msg.regPayload
    else if msg.type == "token_auth" then
      let v := validateToken fs db now "" clientIP
      if v.dbErr || !v.valid then
        ⟨[.errorMsg "token_error" "Invalid or expired token"], v.ops, c, v.db⟩
      else
        match completeAuthentication c v.username "" with
        | (c1, resp) => ⟨[resp], v.ops, c1, v.db⟩
    else ⟨[], [], c, db⟩

/-! ### The client hub (`ClientManager.run`)

The hub owns the registry of live sessions.  Each session is identified
by `sid` (standing for the `*Client` pointer identity); its buffered
send channel is a queue of at most `sendCap` messages, and `closeCount`
counts how many times `close` was executed on that channel.  Removed
sessions are kept, with their final queue state, in `removed` so that
closing and later deliveries are observable. -/

/-- Capacity of a client's send channel (`make(chan []byte, 256)`). -/
def sendCap : Nat := 256

/-- The welcome message sent on registration. -/
def welcomeMessage : String := "Welcome to the Server!"

/-- One session as the hub sees it. -/
structure HubSession where
  sid : Nat
  queue : List String
  closeCount : Nat
  deriving Repr, DecidableEq

/-- The hub's state: currently registered sessions and the sessions that
have been removed (their queues closed). -/
structure HubState where
  registry : List HubSession
  removed : List HubSession
  deriving Repr, DecidableEq

/-- The hub before any request. -/
def hubInit : HubState := ⟨[], []⟩

/-- A request arriving on one of the hub's three channels. -/
inductive HubEvent where
  | register (sid : Nat)
  | unregister (sid : Nat)
  | broadcast (payload : String)
  deriving Repr, DecidableEq

/-- One iteration of `ClientManager.run`:
`register` puts the session in the map (already-present keys stay single)
and sends the welcome message; `unregister` deletes the session and
closes its queue only if present; `broadcast` appends the payload to
every registered session's queue that has room, and forcibly removes and
closes every session whose queue is full. -/
def hubStep (h : HubState) : HubEvent → HubState
  | .register sid =>
    if h.registry.any (fun s => s.sid == sid) then
      ⟨h.registry.map (fun s =>
         if s.sid == sid then ⟨s.sid, s.queue ++ [welcomeMessage], s.closeCount⟩
         else s),
       h.removed⟩
    else ⟨h.registry ++ [⟨sid, [welcomeMessage], 0⟩], h.removed⟩
  | .unregister sid =>
    match h.registry.find? (fun s => s.sid == sid) with
    | some s =>
      ⟨h.registry.filter (fun x => !(x.sid == sid)),
       h.removed ++ [⟨s.sid, s.queue, s.closeCount + 1⟩]⟩
    | none => h
  | .broadcast payload =>
    ⟨(h.registry.filter (fun s => s.queue.length < sendCap)).map
       (fun s => ⟨s.sid, s.queue ++ [payload], s.closeCount⟩),
     h.removed ++
       (h.registry.filter (fun s => ¬ s.queue.length < sendCap)).map
         (fun s => ⟨s.sid, s.queue, s.closeCount + 1⟩)⟩

/-- Processing a whole request sequence. -/
def hubRun (h : HubState) (evs : List HubEvent) : HubState :=
  evs.foldl hubStep h

/-! ### Concrete fixtures used for evaluation -/

/-- A password verifier that accepts everything. -/
def verifyAlways : String → String → Bool := fun _ _ => true

/-- A stand-in for the bcrypt hash function. -/
def hashTag : String → String := fun p => p ++ "#h"

/-- A registered user. -/
def aliceUser : UserRow := ⟨1, "alice", "hashpw", ""⟩

/-- A token for `aliceUser`, created at time 0, originally from
`1.2.3.4`. -/
def tokenT : TokenRow := ⟨1, 1, "T-123", some "1.2.3.4", 0, sevenDays, none, false⟩

/-- A store holding `aliceUser` and `tokenT`. -/
def aliceDB : DBState := ⟨[aliceUser], [tokenT], 2, 2⟩

/-- An empty store. -/
def emptyDB : DBState := ⟨[], [], 1, 1⟩

/-- A `token_auth` envelope whose payload carries the valid token. -/
def tokenAuthFrame : MessageEnvelope := ⟨"token_auth", none, some ⟨"T-123"⟩, none⟩

/-- The schedule on which only the user-id lookup after registration
fails. -/
def fsGetUserIdOnly : FailureSchedule :=
  ⟨false, false, false, false, true, false, false, false⟩

/-- A queue at capacity. -/
def fullQueue : List String := List.replicate sendCap "m"

/-- A session whose queue is full. -/
def sFull : HubSession := ⟨1, fullQueue, 0⟩

/-- A session with room in its queue. -/
def sRoom : HubSession := ⟨2, [], 0⟩

/-- A hub with one full and one draining session. -/
def hubTwo : HubState := ⟨[sFull, sRoom], []⟩

/-- A client that already authenticated. -/
def authedClient : Client := ⟨"alice", true, "T-123"⟩

/-! ### Theorems -/

/-- C1: the spec requires the `token_auth` handler to parse `{token}`
from the payload and authenticate with that token, so that a token
issued by registration immediately authenticates a new connection.  The
dispatch path in `handlePacket` never unmarshals the payload: with a
valid token `T-123` in the store (the lookup at the same instant is
`isSome`) and an envelope carrying exactly that token, the code looks up
the zero-valued token `""` instead, emits the generic invalid-token
error and leaves the connection unauthenticated. -/
theorem tokenAuth_dispatch_rejects_valid_token :
    (lookupToken aliceDB 1 "T-123").isSome = true ∧
    handlePacket noFailures verifyAlways hashTag "new-tok" "9.9.9.9" 1 newClient
        aliceDB (some tokenAuthFrame) =
      ⟨[Response.errorMsg "token_error" "Invalid or expired token"],
       [DBOp.lookupToken ""], newClient, aliceDB⟩ := by
  exact ⟨rfl, rfl⟩

/-- C8: a frame that fails to decode as a `{type, payload}` envelope
produces no reply and changes no state, and a well-formed envelope whose
type is none of `login`, `register`, `token_auth` likewise produces no
reply and changes no state. -/
theorem malformed_or_unknown_frames_ignored
    (fs : FailureSchedule) (verify : String → String → Bool)
    (hashFn : String → String) (newToken clientIP : String) (now : Nat)
    (c : Client) (db : DBState) :
    handlePacket fs verify hashFn newToken clientIP now c db none
        = ⟨[], [], c, db⟩ ∧
    (∀ msg : MessageEnvelope, msg.type ≠ "login" → msg.type ≠ "register" →
       msg.type ≠ "token_auth" →
       handlePacket fs verify hashFn newToken clientIP now c db (some msg)
         = ⟨[], [], c, db⟩) := by
  refine ⟨rfl, fun msg h1 h2 h3 => ?_⟩
  simp [handlePacket, h1, h2, h3]

/-- C8 witness: a `ping` envelope is silently dropped. -/
theorem malformed_or_unknown_frames_ignored_witness :
    handlePacket noFailures verifyAlways hashTag "tok" "1.1.1.1" 0 newClient
        emptyDB (some ⟨"ping", none, none, none⟩) = ⟨[], [], newClient, emptyDB⟩ :=
  (malformed_or_unknown_frames_ignored noFailures verifyAlways hashTag "tok"
      "1.1.1.1" 0 newClient emptyDB).2 ⟨"ping", none, none, none⟩
    (by decide) (by decide) (by decide)

/-- C5: registration validation: a username shorter than 3 bytes, a
password shorter than 6 bytes, or a present email that fails the email
format check each produce their specific validation error, send nothing
else, perform no database operation at all (in particular no write) and
leave the client and store unchanged. -/
theorem registration_validation_errors
    (fs : FailureSchedule) (hashFn : String → String)
    (newToken clientIP : String) (now : Nat) (c : Client) (db : DBState)
    (reg : RegistrationInput) :
    (reg.username.utf8ByteSize < 3 →
       handleRegistration fs hashFn newToken clientIP now c db (some reg) =
         ⟨[.errorMsg "registration_error" "Username must be at least 3 characters"],
          [], c, db⟩) ∧
    (¬ reg.username.utf8ByteSize < 3 → reg.password.utf8ByteSize < 6 →
       handleRegistration fs hashFn newToken clientIP now c db (some reg) =
         ⟨[.errorMsg "registration_error" "Password must be at least 6 characters"],
          [], c, db⟩) ∧
    (¬ reg.username.utf8ByteSize < 3 → ¬ reg.password.utf8ByteSize < 6 →
       reg.email ≠ "" → IsValidEmail reg.email = false →
       handleRegistration fs hashFn newToken clientIP now c db (some reg) =
         ⟨[.errorMsg "registration_error" "Invalid email format"], [], c, db⟩) := by
  refine ⟨fun h1 => ?_, fun h1 h2 => ?_, fun h1 h2 h3 h4 => ?_⟩
  · simp [handleRegistration, h1]
  · simp [handleRegistration, h1, h2]
  · simp [handleRegistration, h1, h2, h3, h4]

/-- C5 witness: registering with username `ab` yields the username-length
validation error and touches nothing. -/
theorem registration_validation_errors_witness :
    handleRegistration noFailures hashTag "tok" "1.1.1.1" 0 newClient emptyDB
        (some ⟨"ab", "secret1", ""⟩) =
      ⟨[.errorMsg "registration_error" "Username must be at least 3 characters"],
       [], newClient, emptyDB⟩ :=
  (registration_validation_errors noFailures hashTag "tok" "1.1.1.1" 0 newClient
      emptyDB ⟨"ab", "secret1", ""⟩).1 (by decide)

/-- On a store whose token values are unique, the token lookup finds
exactly the row carrying the token, and only while it is unexpired. -/
lemma find?_token_unique (db : DBState) (t : TokenRow) (now : Nat)
    (hmem : t ∈ db.tokens)
    (huniq : ∀ x ∈ db.tokens, x.token = t.token → x = t) :
    db.tokens.find? (fun x => x.token == t.token && decide (now < x.expiresAt))
      = if now < t.expiresAt then some t else none := by
  by_cases h : now < t.expiresAt
  · rw [if_pos h]
    rcases hf : db.tokens.find?
        (fun x => x.token == t.token && decide (now < x.expiresAt)) with _ | x
    · exfalso
      have hnone := List.find?_eq_none.mp hf t hmem
      simp [h] at hnone
    · have hx := List.find?_some hf
      have hxm := List.mem_of_find?_eq_some hf
      simp only [Bool.and_eq_true, beq_iff_eq, decide_eq_true_eq] at hx
      rw [hf, huniq x hxm hx.1]
  · rw [if_neg h]
    apply List.find?_eq_none.mpr
    intro x hxm hx
    simp only [Bool.and_eq_true, beq_iff_eq, decide_eq_true_eq] at hx
    have hxt := huniq x hxm hx.1
    subst hxt
    exact h hx.2

/-- C3: when a token lookup succeeds (row found, unexpired, owner joined)
and the stored originating IP is present, nonempty and different from the
caller's IP, validation still succeeds with the owner's username, the
warning is logged, and the row is overwritten with the caller's IP and
the last-used timestamp. -/
theorem validateToken_ip_mismatch_allowed
    (fs : FailureSchedule) (db : DBState) (now : Nat) (token clientIP : String)
    (t : TokenRow) (u : UserRow) (stored : String)
    (hlf : fs.lookupTokenFails = false) (htf : fs.touchTokenFails = false)
    (hfind : db.tokens.find?
        (fun x => x.token == token && decide (now < x.expiresAt)) = some t)
    (hjoin : db.users.find? (fun x => x.id == t.userId) = some u)
    (hip : t.ipAddress = some stored) (hne : stored ≠ "")
    (hnecl : stored ≠ clientIP) :
    (validateToken fs db now token clientIP).valid = true ∧
    (validateToken fs db now token clientIP).dbErr = false ∧
    (validateToken fs db now token clientIP).username = u.username ∧
    (validateToken fs db now token clientIP).warnLogged = true ∧
    (⟨t.id, t.userId, t.token, some clientIP, t.createdAt, t.expiresAt,
        some now, t.isRevoked⟩ : TokenRow)
      ∈ (validateToken fs db now token clientIP).db.tokens ∧
    (∀ x ∈ (validateToken fs db now token clientIP).db.tokens,
       x.id = t.id → x.ipAddress = some clientIP ∧ x.lastUsedAt = some now) := by
  have hmem : t ∈ db.tokens := List.mem_of_find?_eq_some hfind
  have hne1 : (stored == "") = false := beq_eq_false_iff_ne.mpr hne
  have hne2 : (stored == clientIP) = false := beq_eq_false_iff_ne.mpr hnecl
  simp only [validateToken, hlf, lookupToken, hfind, Option.some_bind, hjoin,
    Option.map_some', htf, Bool.false_eq_true, if_false, hip, hne1, hne2,
    Bool.not_false, Bool.and_self]
  refine ⟨trivial, trivial, trivial, trivial, ?_, ?_⟩
  · have hmm := List.mem_map_of_mem (fun x : TokenRow =>
      if x.id == t.id then
        (⟨x.id, x.userId, x.token, some clientIP, x.createdAt,
          x.expiresAt, some now, x.isRevoked⟩ : TokenRow)
      else x) hmem
    simpa using hmm
  · intro x hx hid
    rcases List.mem_map.mp hx with ⟨y, _, hy⟩
    by_cases hyt : y.id = t.id
    · simp only [hyt, beq_self_eq_true, if_true] at hy
      rw [← hy]
      exact ⟨rfl, rfl⟩
    · simp only [beq_eq_false_iff_ne.mpr hyt, Bool.false_eq_true, if_false] at hy
      exact absurd (hy ▸ hid) hyt

/-- C7: on a store whose token values are unique and whose owning user
row joins, a non-revoked token with expiry = creation + 7 days validates
successfully exactly when the current time is strictly before its
expiry; in particular it validates at its creation instant, and once the
clock reaches the expiry the lookup returns nothing and validation fails
without a database error. -/
theorem token_validates_iff_before_expiry
    (fs : FailureSchedule) (db : DBState) (clientIP : String)
    (t : TokenRow) (u : UserRow)
    (hlf : fs.lookupTokenFails = false)
    (hmem : t ∈ db.tokens)
    (huniq : ∀ x ∈ db.tokens, x.token = t.token → x = t)
    (hjoin : db.users.find? (fun x => x.id == t.userId) = some u)
    (hrev : t.isRevoked = false)
    (hexp : t.expiresAt = t.createdAt + sevenDays) :
    (∀ now, (validateToken fs db now t.token clientIP).valid = true
              ↔ now < t.expiresAt) ∧
    (validateToken fs db t.createdAt t.token clientIP).valid = true ∧
    (∀ now, t.expiresAt ≤ now →
       lookupToken db now t.token = none ∧
       (validateToken fs db now t.token clientIP).valid = false ∧
       (validateToken fs db now t.token clientIP).dbErr = false) := by
  have hiff : ∀ now, (validateToken fs db now t.token clientIP).valid = true
      ↔ now < t.expiresAt := by
    intro now
    have hf := find?_token_unique db t now hmem huniq
    by_cases h : now < t.expiresAt
    · rw [if_pos h] at hf
      simp only [validateToken, hlf, lookupToken, hf, Option.some_bind, hjoin,
        Option.map_some', Bool.false_eq_true, if_false]
      by_cases ht : fs.touchTokenFails <;> simp [ht, h]
    · rw [if_neg h] at hf
      simp [validateToken, hlf, lookupToken, hf, h]
  refine ⟨hiff, ?_, fun now hnow => ?_⟩
  · exact (hiff t.createdAt).mpr (by rw [hexp]; exact Nat.lt_add_of_pos_right (by decide))
  · have h : ¬ now < t.expiresAt := Nat.not_lt.mpr hnow
    have hf := find?_token_unique db t now hmem huniq
    rw [if_neg h] at hf
    refine ⟨by simp [lookupToken, hf], ?_, ?_⟩ <;>
      simp [validateToken, hlf, lookupToken, hf]

/-- C3 witness: the stored token originated from `1.2.3.4`; presenting it
from `9.9.9.9` succeeds as alice, logs the warning and rewrites the row. -/
theorem validateToken_ip_mismatch_allowed_witness :
    (validateToken noFailures aliceDB 1 "T-123" "9.9.9.9").valid = true ∧
    (validateToken noFailures aliceDB 1 "T-123" "9.9.9.9").username = "alice" ∧
    (validateToken noFailures aliceDB 1 "T-123" "9.9.9.9").warnLogged = true :=
  have h := validateToken_ip_mismatch_allowed noFailures aliceDB 1 "T-123"
    "9.9.9.9" tokenT aliceUser "1.2.3.4" rfl rfl (by decide) (by decide)
    (by decide) (by decide) (by decide)
  ⟨h.1, h.2.2.1, h.2.2.2.1⟩

/-- C7 witness: alice's token validates at its creation instant and is
reported not found at its expiry. -/
theorem token_validates_iff_before_expiry_witness :
    (validateToken noFailures aliceDB 0 "T-123" "1.2.3.4").valid = true ∧
    lookupToken aliceDB sevenDays "T-123" = none :=
  have h := token_validates_iff_before_expiry noFailures aliceDB "1.2.3.4"
    tokenT aliceUser rfl (by decide) (by decide) (by decide) (by decide)
    (by decide)
  ⟨h.2.1, (h.2.2 sevenDays (by decide)).1⟩

/-- When hashing and the user insert succeed but the auto-login token
step fails — the user-id lookup errs (or finds nothing) or the token
insert errs — the insert phase reports plain success without auto-login
and leaves the client untouched, the user row having been added. -/
lemma registrationInsert_token_failure
    (fs : FailureSchedule) (hashFn : String → String)
    (newToken clientIP : String) (now : Nat) (c : Client) (db : DBState)
    (reg : RegistrationInput) (ops : List DBOp)
    (h6 : fs.hashFails = false) (h7 : fs.insertUserFails = false)
    (h8 : fs.getUserIdFails = true ∨ fs.insertTokenFails = true) :
    (registrationInsert fs hashFn newToken clientIP now c db reg ops).responses
      = [Response.registerSuccess true "Registration successful" false none none] ∧
    (registrationInsert fs hashFn newToken clientIP now c db reg ops).client = c ∧
    (⟨db.nextUserId, reg.username, hashFn reg.password, reg.email⟩ : UserRow)
      ∈ (registrationInsert fs hashFn newToken clientIP now c db reg ops).db.users := by
  by_cases hg : fs.getUserIdFails
  · simp [registrationInsert, h6, h7, hg, sendRegistrationSuccess]
  · have hins : fs.insertTokenFails = true := by
      rcases h8 with h8 | h8
      · exact absurd h8 hg
      · exact h8
    rcases hfind : (db.users ++
        [(⟨db.nextUserId, reg.username, hashFn reg.password, reg.email⟩ : UserRow)]).find?
          (fun u => u.username == reg.username) with _ | u <;>
      simp [registrationInsert, h6, h7, hg, hins, hfind, sendRegistrationSuccess]

/-- C6: for a registration that passes validation and uniqueness checks
and inserts its user row, a failure in either token-creation step
(user-id lookup or token insert) still reports `register_success` with
`success = true` but `autoLogin = false`, carries no username or token
field, and does not change the connection's auth state; the user row is
in the store. -/
theorem registration_token_failure_no_autologin
    (fs : FailureSchedule) (hashFn : String → String)
    (newToken clientIP : String) (now : Nat) (c : Client) (db : DBState)
    (reg : RegistrationInput)
    (h1 : ¬ reg.username.utf8ByteSize < 3)
    (h2 : ¬ reg.password.utf8ByteSize < 6)
    (h3 : reg.email = "" ∨
       (reg.email ≠ "" ∧ IsValidEmail reg.email = true ∧
        fs.emailExistsFails = false ∧
        db.users.any (fun u => u.email == reg.email) = false))
    (h4 : fs.usernameExistsFails = false)
    (h5 : db.users.any (fun u => u.username == reg.username) = false)
    (h6 : fs.hashFails = false) (h7 : fs.insertUserFails = false)
    (h8 : fs.getUserIdFails = true ∨ fs.insertTokenFails = true) :
    (handleRegistration fs hashFn newToken clientIP now c db (some reg)).responses
      = [Response.registerSuccess true "Registration successful" false none none] ∧
    (handleRegistration fs hashFn newToken clientIP now c db (some reg)).client = c ∧
    (⟨db.nextUserId, reg.username, hashFn reg.password, reg.email⟩ : UserRow)
      ∈ (handleRegistration fs hashFn newToken clientIP now c db (some reg)).db.users := by
  rcases h3 with he | ⟨he, hv, hee, hex⟩
  · simp only [handleRegistration, h1, if_false, h2, he, ne_eq,
      not_true_eq_false, false_and, if_false, h4, Bool.false_eq_true, h5,
      not_false_eq_true]
    simpa [h1, h2, h4, h5, he] using
      registrationInsert_token_failure fs hashFn newToken clientIP now c db reg
        [.checkUsernameExists reg.username] h6 h7 h8
  · simp only [handleRegistration, h1, h2, he, hv, h4, h5, hee, hex]
    simpa [h1, h2, h4, h5, he, hv, hee, hex] using
      registrationInsert_token_failure fs hashFn newToken clientIP now c db reg
        [.checkUsernameExists reg.username, .checkEmailExists reg.email] h6 h7 h8

/-- C6 witness: registering alice on an empty store while the user-id
lookup fails yields `success = true`, `autoLogin = false`, no credential
fields, and an unchanged client. -/
theorem registration_token_failure_no_autologin_witness :
    (handleRegistration fsGetUserIdOnly hashTag "tok" "1.1.1.1" 100 newClient
        emptyDB (some ⟨"alice", "secretpw", ""⟩)).responses
      = [Response.registerSuccess true "Registration successful" false none none] ∧
    (handleRegistration fsGetUserIdOnly hashTag "tok" "1.1.1.1" 100 newClient
        emptyDB (some ⟨"alice", "secretpw", ""⟩)).client = newClient :=
  have h := registration_token_failure_no_autologin fsGetUserIdOnly hashTag
    "tok" "1.1.1.1" 100 newClient emptyDB ⟨"alice", "secretpw", ""⟩
    (by decide) (by decide) (Or.inl rfl) rfl (by decide) rfl rfl (Or.inl rfl)
  ⟨h.1, h.2.1⟩

/-- The insert phase either leaves the client untouched or marks it
authenticated. -/
lemma registrationInsert_client (fs : FailureSchedule)
    (hashFn : String → String) (newToken clientIP : String) (now : Nat)
    (c : Client) (db : DBState) (reg : RegistrationInput) (ops : List DBOp) :
    (registrationInsert fs hashFn newToken clientIP now c db reg ops).client = c ∨
    (registrationInsert fs hashFn newToken clientIP now c db reg
        ops).client.authenticated = true := by
  by_cases h1 : fs.hashFails
  · simp [registrationInsert, h1]
  · by_cases h2 : fs.insertUserFails
    · simp [registrationInsert, h1, h2]
    · by_cases h3 : fs.getUserIdFails
      · simp [registrationInsert, h1, h2, h3]
      · rcases hf : (db.users ++
            [(⟨db.nextUserId, reg.username, hashFn reg.password, reg.email⟩ :
              UserRow)]).find? (fun u => u.username == reg.username) with _ | u
        · simp [registrationInsert, h1, h2, h3, hf]
        · by_cases h4 : fs.insertTokenFails <;>
            simp [registrationInsert, h1, h2, h3, hf, h4]

/-- Registration either leaves the client untouched or marks it
authenticated. -/
lemma handleRegistration_client (fs : FailureSchedule)
    (hashFn : String → String) (newToken clientIP : String) (now : Nat)
    (c : Client) (db : DBState) (payload : Option RegistrationInput) :
    (handleRegistration fs hashFn newToken clientIP now c db payload).client = c ∨
    (handleRegistration fs hashFn newToken clientIP now c db
        payload).client.authenticated = true := by
  cases payload with
  | none => exact Or.inl rfl
  | some reg =>
    simp only [handleRegistration]
    split_ifs <;> first
      | exact Or.inl rfl
      | exact registrationInsert_client fs hashFn newToken clientIP now c db reg _

/-- The login/token switch either leaves the client untouched or marks it
authenticated. -/
lemma handleAuthentication_client (fs : FailureSchedule)
    (verify : String → String → Bool) (newToken clientIP : String) (now : Nat)
    (c : Client) (db : DBState) (msg : MessageEnvelope) :
    (handleAuthentication fs verify newToken clientIP now c db msg).client = c ∨
    (handleAuthentication fs verify newToken clientIP now c db
        msg).client.authenticated = true := by
  by_cases ht : msg.type == "login"
  · cases hp : msg.loginPayload with
    | none => simp [handleAuthentication, ht, hp]
    | some cred =>
      rcases hv : validateCredentials fs verify newToken clientIP now db
          cred.username cred.password with ⟨auth, tok, err, db1⟩
      by_cases he : (err || !auth) = true
      · simp [handleAuthentication, ht, hp, hv, he]
      · simp [handleAuthentication, ht, hp, hv, he, completeAuthentication]
  · by_cases ht2 : msg.type == "token_auth"
    · cases hp : msg.tokenPayload with
      | none => simp [handleAuthentication, ht, ht2, hp]
      | some tp =>
        by_cases hvv : ((validateToken fs db now tp.token clientIP).dbErr ||
            !(validateToken fs db now tp.token clientIP).valid) = true
        · simp [handleAuthentication, ht, ht2, hp, hvv]
        · simp [handleAuthentication, ht, ht2, hp, hvv, completeAuthentication]
    · simp [handleAuthentication, ht, ht2]

/-- The dispatcher either leaves the client untouched or marks it
authenticated. -/
lemma handlePacket_client (fs : FailureSchedule)
    (verify : String → String → Bool) (hashFn : String → String)
    (newToken clientIP : String) (now : Nat) (c : Client) (db : DBState)
    (frame : Option MessageEnvelope) :
    (handlePacket fs verify hashFn newToken clientIP now c db frame).client = c ∨
    (handlePacket fs verify hashFn newToken clientIP now c db
        frame).client.authenticated = true := by
  cases frame with
  | none => exact Or.inl rfl
  | some msg =>
    by_cases h1 : msg.type == "login"
    · simpa [handlePacket, h1] using
        handleAuthentication_client fs verify newToken clientIP now c db msg
    · by_cases h2 : msg.type == "register"
      · simpa [handlePacket, h1, h2] using
          handleRegistration_client fs hashFn newToken clientIP now c db
            msg.regPayload
      · by_cases h3 : msg.type == "token_auth"
        · by_cases hvv : ((validateToken fs db now "" clientIP).dbErr ||
              !(validateToken fs db now "" clientIP).valid) = true
          · simp [handlePacket, h1, h2, h3, hvv]
          · simp [handlePacket, h1, h2, h3, hvv, completeAuthentication]
        · simp [handlePacket, h1, h2, h3]

/-- C9: a connection starts unauthenticated, and no inbound envelope of
any type ever resets an authenticated connection: once `authenticated`
is true it stays true after every possible `handlePacket` step. -/
theorem authenticated_flag_monotone :
    newClient.authenticated = false ∧
    ∀ (fs : FailureSchedule) (verify : String → String → Bool)
      (hashFn : String → String) (newToken clientIP : String) (now : Nat)
      (c : Client) (db : DBState) (frame : Option MessageEnvelope),
      c.authenticated = true →
      (handlePacket fs verify hashFn newToken clientIP now c db
          frame).client.authenticated = true := by
  refine ⟨rfl, fun fs verify hashFn newToken clientIP now c db frame hc => ?_⟩
  rcases handlePacket_client fs verify hashFn newToken clientIP now c db frame
    with h | h
  · rw [h, hc]
  · exact h

/-- C9 witness: an already-authenticated client stays authenticated
across a handler step. -/
theorem authenticated_flag_monotone_witness :
    (handlePacket noFailures verifyAlways hashTag "tok" "1.1.1.1" 0 authedClient
        emptyDB (some tokenAuthFrame)).client.authenticated = true :=
  authenticated_flag_monotone.2 noFailures verifyAlways hashTag "tok" "1.1.1.1"
    0 authedClient emptyDB (some tokenAuthFrame) rfl

/-- With an empty email, the insert phase issues no email-uniqueness
check, every user insert it issues carries the empty email, and every
user row it adds stores the empty email. -/
lemma registrationInsert_empty_email (fs : FailureSchedule)
    (hashFn : String → String) (newToken clientIP : String) (now : Nat)
    (c : Client) (db : DBState) (reg : RegistrationInput) (ops : List DBOp)
    (he : reg.email = "")
    (hops1 : ∀ e, DBOp.checkEmailExists e ∉ ops)
    (hops2 : ∀ un ph e, DBOp.insertUser un ph e ∈ ops → e = "") :
    (∀ e, DBOp.checkEmailExists e
       ∉ (registrationInsert fs hashFn newToken clientIP now c db reg ops).ops) ∧
    (∀ un ph e, DBOp.insertUser un ph e
       ∈ (registrationInsert fs hashFn newToken clientIP now c db reg ops).ops
       → e = "") ∧
    (∀ row ∈ (registrationInsert fs hashFn newToken clientIP now c db reg
        ops).db.users, row ∈ db.users ∨ row.email = "") := by
  have hmain : ∀ tail : List DBOp,
      (∀ e, DBOp.checkEmailExists e ∉ tail) →
      (∀ un ph e, DBOp.insertUser un ph e ∈ tail → e = "") →
      (∀ e, DBOp.checkEmailExists e ∉ ops ++ tail) ∧
      (∀ un ph e, DBOp.insertUser un ph e ∈ ops ++ tail → e = "") := by
    intro tail ht1 ht2
    constructor
    · intro e hmem
      rcases List.mem_append.mp hmem with h | h
      · exact hops1 e h
      · exact ht1 e h
    · intro un ph e hmem
      rcases List.mem_append.mp hmem with h | h
      · exact hops2 un ph e h
      · exact ht2 un ph e h
  have hrow : ∀ row ∈ db.users ++
      [(⟨db.nextUserId, reg.username, hashFn reg.password, reg.email⟩ : UserRow)],
      row ∈ db.users ∨ row.email = "" := by
    intro row hmem
    rcases List.mem_append.mp hmem with h | h
    · exact Or.inl h
    · right
      rw [List.mem_singleton.mp h, he]
  by_cases h1 : fs.hashFails
  · simp only [registrationInsert, h1, if_true]
    exact ⟨hops1, hops2, fun row h => Or.inl h⟩
  · by_cases h2 : fs.insertUserFails
    · simp only [registrationInsert, h1, Bool.false_eq_true, if_false, h2, if_true]
      have hiu2 : ∀ un ph e, DBOp.insertUser un ph e ∈
          ([DBOp.insertUser reg.username (hashFn reg.password) reg.email] :
            List DBOp) → e = "" := by
        intro un ph e h
        rw [he] at h
        simp at h
        exact h.2.2
      have h12 := hmain _ (by simp) hiu2
      exact ⟨h12.1, h12.2, fun row h => Or.inl h⟩
    · have htail1 : ∀ e, DBOp.checkEmailExists e ∉
          ([DBOp.insertUser reg.username (hashFn reg.password) reg.email,
            DBOp.getUserId reg.username] : List DBOp) := by simp
      have htail2 : ∀ un ph e, DBOp.insertUser un ph e ∈
          ([DBOp.insertUser reg.username (hashFn reg.password) reg.email,
            DBOp.getUserId reg.username] : List DBOp) → e = "" := by
        intro un ph e h
        rw [he] at h
        simp at h
        exact h.2.2
      by_cases h3 : fs.getUserIdFails
      · simp only [registrationInsert, h1, Bool.false_eq_true, if_false, h2,
          h3, if_true]
        have h12 := hmain _ htail1 htail2
        rw [List.append_assoc]
        exact ⟨h12.1, h12.2, hrow⟩
      · rcases hf : (db.users ++
            [(⟨db.nextUserId, reg.username, hashFn reg.password, reg.email⟩ :
              UserRow)]).find? (fun u => u.username == reg.username) with _ | u
        · simp only [registrationInsert, h1, Bool.false_eq_true, if_false, h2,
            h3, hf]
          have h12 := hmain _ htail1 htail2
          rw [List.append_assoc]
          exact ⟨h12.1, h12.2, hrow⟩
        · have htok1 : ∀ e, DBOp.checkEmailExists e ∉
              ([DBOp.insertUser reg.username (hashFn reg.password) reg.email,
                DBOp.getUserId reg.username,
                DBOp.insertToken u.id newToken clientIP now (now + sevenDays)] :
                List DBOp) := by simp
          have htok2 : ∀ un ph e, DBOp.insertUser un ph e ∈
              ([DBOp.insertUser reg.username (hashFn reg.password) reg.email,
                DBOp.getUserId reg.username,
                DBOp.insertToken u.id newToken clientIP now (now + sevenDays)] :
                List DBOp) → e = "" := by
            intro un ph e h
            rw [he] at h
            simp at h
            exact h.2.2
          have h12 := hmain _ htok1 htok2
          by_cases h4 : fs.insertTokenFails <;>
            · simp only [registrationInsert, h1, Bool.false_eq_true, if_false,
                h2, h3, hf, h4, if_true]
              rw [List.append_assoc, List.append_assoc]
              exact ⟨h12.1, h12.2, hrow⟩

/-- C10: with an absent or empty email, registration skips the email
uniqueness check entirely, any user insert it performs stores the
literal empty string as the email, every user row it adds carries the
empty email — and the `email` column is declared `UNIQUE` (and
nullable). -/
theorem empty_email_registration (fs : FailureSchedule)
    (hashFn : String → String) (newToken clientIP : String) (now : Nat)
    (c : Client) (db : DBState) (reg : RegistrationInput)
    (he : reg.email = "") :
    (ColumnSpec.mk "email" true false ∈ usersColumns) ∧
    (∀ e, DBOp.checkEmailExists e
       ∉ (handleRegistration fs hashFn newToken clientIP now c db (some reg)).ops) ∧
    (∀ un ph e, DBOp.insertUser un ph e
       ∈ (handleRegistration fs hashFn newToken clientIP now c db (some reg)).ops
       → e = "") ∧
    (∀ row ∈ (handleRegistration fs hashFn newToken clientIP now c db
        (some reg)).db.users, row ∈ db.users ∨ row.email = "") := by
  refine ⟨by decide, ?_⟩
  have hins := registrationInsert_empty_email fs hashFn newToken clientIP now c
    db reg [DBOp.checkUsernameExists reg.username] he (by simp)
    (by intro un ph e h; simpa using h)
  by_cases h1 : reg.username.utf8ByteSize < 3
  · simp only [handleRegistration, h1, if_true]
    exact ⟨by simp, by simp, fun row h => Or.inl h⟩
  · by_cases h2 : reg.password.utf8ByteSize < 6
    · simp only [handleRegistration, h1, if_false, h2, if_true]
      exact ⟨by simp, by simp, fun row h => Or.inl h⟩
    · by_cases h4 : fs.usernameExistsFails
      · simp only [handleRegistration, h1, if_false, h2, he, ne_eq,
          not_true_eq_false, false_and, h4, if_true]
        exact ⟨by simp, by simp, fun row h => Or.inl h⟩
      · by_cases h5 : db.users.any (fun u => u.username == reg.username)
        · simp only [handleRegistration, h1, if_false, h2, he, ne_eq,
            not_true_eq_false, false_and, h4, Bool.false_eq_true, h5, if_true]
          exact ⟨by simp, by simp, fun row h => Or.inl h⟩
        · simp only [handleRegistration, h1, Bool.false_eq_true, if_false, h2,
            he, ne_eq, not_true_eq_false, false_and, if_false, h4, h5,
            not_false_eq_true]
          simpa [h1, h2, h4, h5] using hins

/-- C10 witness: registering bob without an email on an empty store
issues no email-existence check, and the `email` column is unique. -/
theorem empty_email_registration_witness :
    ColumnSpec.mk "email" true false ∈ usersColumns ∧
    DBOp.checkEmailExists "" ∉ (handleRegistration noFailures hashTag "tok"
      "1.1.1.1" 0 newClient emptyDB (some ⟨"bob", "secret1", ""⟩)).ops :=
  have h := empty_email_registration noFailures hashTag "tok" "1.1.1.1" 0
    newClient emptyDB ⟨"bob", "secret1", ""⟩ rfl
  ⟨h.1, h.2.1 ""⟩

/-- Mapping a sid-preserving update over sessions leaves the sid list
unchanged. -/
lemma map_sid_of_preserve (f : HubSession → HubSession)
    (hf : ∀ s, (f s).sid = s.sid) (l : List HubSession) :
    (l.map f).map HubSession.sid = l.map HubSession.sid := by
  induction l with
  | nil => rfl
  | cons a t ih => simp [hf, ih]

/-- A session absent from the registry stays absent across any hub event
other than its own registration, and its removed entries are untouched. -/
lemma hub_absent_step (h : HubState) (e : HubEvent) (sid : Nat)
    (habs : ∀ t ∈ h.registry, t.sid ≠ sid) (hne : e ≠ .register sid) :
    (∀ t ∈ (hubStep h e).registry, t.sid ≠ sid) ∧
    (hubStep h e).removed.filter (fun t => t.sid == sid)
      = h.removed.filter (fun t => t.sid == sid) := by
  cases e with
  | register sid2 =>
    have hs2 : sid2 ≠ sid := fun hh => hne (by rw [hh])
    by_cases hp : h.registry.any (fun s => s.sid == sid2) = true
    · simp only [hubStep, hp, if_true]
      refine ⟨?_, trivial⟩
      intro t ht
      rcases List.mem_map.mp ht with ⟨y, hy, hyt⟩
      have hysid : t.sid = y.sid := by
        rw [← hyt]
        by_cases hyy : (y.sid == sid2) = true <;> simp [hyy]
      rw [hysid]
      exact habs y hy
    · simp only [hubStep, hp, Bool.false_eq_true, if_false]
      refine ⟨?_, trivial⟩
      intro t ht
      rcases List.mem_append.mp ht with hh | hh
      · exact habs t hh
      · rw [List.mem_singleton.mp hh]
        exact hs2
  | unregister sid2 =>
    rcases hf : h.registry.find? (fun s => s.sid == sid2) with _ | s
    · simp only [hubStep, hf]
      exact ⟨habs, trivial⟩
    · simp only [hubStep, hf]
      constructor
      · intro t ht
        exact habs t (List.mem_of_mem_filter ht)
      · rw [List.filter_append]
        have hssid : s.sid ≠ sid := habs s (List.mem_of_find?_eq_some hf)
        simp [hssid]
  | broadcast payload =>
    simp only [hubStep]
    constructor
    · intro t ht
      rcases List.mem_map.mp ht with ⟨y, hy, hyt⟩
      rw [← hyt]
      exact habs y (List.mem_of_mem_filter hy)
    · rw [List.filter_append]
      have hnil : (((h.registry.filter fun s => ¬ s.queue.length < sendCap).map
          fun s => (⟨s.sid, s.queue, s.closeCount + 1⟩ : HubSession)).filter
            fun t => t.sid == sid) = [] := by
        apply List.filter_eq_nil_iff.mpr
        intro a ha
        rcases List.mem_map.mp ha with ⟨y, hy, hya⟩
        have hys := habs y (List.mem_of_mem_filter hy)
        rw [← hya]
        simpa using hys
      rw [hnil, List.append_nil]

/-- A session absent from the registry stays absent across any request
sequence that never re-registers it, and its removed entries never
change. -/
lemma hub_absent_run (h : HubState) (evs : List HubEvent) (sid : Nat)
    (habs : ∀ t ∈ h.registry, t.sid ≠ sid)
    (hnr : HubEvent.register sid ∉ evs) :
    (∀ t ∈ (hubRun h evs).registry, t.sid ≠ sid) ∧
    (hubRun h evs).removed.filter (fun t => t.sid == sid)
      = h.removed.filter (fun t => t.sid == sid) := by
  induction evs generalizing h with
  | nil => exact ⟨habs, rfl⟩
  | cons e rest ih =>
    have hne : e ≠ .register sid := by
      intro hh
      exact hnr (hh ▸ List.mem_cons_self e rest)
    have hstep := hub_absent_step h e sid habs hne
    have hrest := ih (hubStep h e) hstep.1
      (fun hm => hnr (List.mem_cons_of_mem e hm))
    exact ⟨hrest.1, hrest.2.trans hstep.2⟩

/-- C2: a broadcast pass delivers the payload to the queue of every
registered session with room; a session whose queue is full is removed
from the registry (no session with its identity remains) and its queue
is closed exactly once in that same pass (its removed entry carries
close count 1); and for any later request sequence that does not
re-register it, it never reappears in the registry and its removed entry
— queue and close count — never changes, so no later broadcast reaches
it. -/
theorem broadcast_backpressure (h : HubState) (payload : String)
    (s : HubSession) (hreg : s ∈ h.registry)
    (hclose : ∀ t ∈ h.registry, t.closeCount = 0)
    (hnodup : (h.registry.map HubSession.sid).Nodup) :
    (s.queue.length < sendCap →
       (⟨s.sid, s.queue ++ [payload], s.closeCount⟩ : HubSession)
         ∈ (hubStep h (.broadcast payload)).registry) ∧
    (¬ s.queue.length < sendCap →
       (∀ t ∈ (hubStep h (.broadcast payload)).registry, t.sid ≠ s.sid) ∧
       (⟨s.sid, s.queue, 1⟩ : HubSession)
         ∈ (hubStep h (.broadcast payload)).removed ∧
       (∀ evs : List HubEvent, HubEvent.register s.sid ∉ evs →
          (∀ t ∈ (hubRun (hubStep h (.broadcast payload)) evs).registry,
             t.sid ≠ s.sid) ∧
          (hubRun (hubStep h (.broadcast payload)) evs).removed.filter
              (fun t => t.sid == s.sid)
            = (hubStep h (.broadcast payload)).removed.filter
                (fun t => t.sid == s.sid))) := by
  constructor
  · intro hlt
    simp only [hubStep]
    exact List.mem_map_of_mem _ (List.mem_filter.mpr ⟨hreg, by simpa using hlt⟩)
  · intro hfull
    have hnotsid : ∀ t ∈ (hubStep h (.broadcast payload)).registry,
        t.sid ≠ s.sid := by
      intro t ht
      simp only [hubStep] at ht
      rcases List.mem_map.mp ht with ⟨y, hy, hyt⟩
      have hymem := List.mem_of_mem_filter hy
      have hyspace := List.of_mem_filter hy
      intro heq
      have hsy : y.sid = s.sid := by
        rw [← hyt] at heq
        simpa using heq
      have hys : y = s := List.inj_on_of_nodup_map hnodup hymem hreg hsy
      rw [hys] at hyspace
      simp at hyspace
      exact hfull hyspace
    refine ⟨hnotsid, ?_, ?_⟩
    · simp only [hubStep]
      apply List.mem_append_right
      have hsmem : s ∈ h.registry.filter (fun t => ¬ t.queue.length < sendCap) :=
        List.mem_filter.mpr ⟨hreg, by simpa using hfull⟩
      have hmm := List.mem_map_of_mem
        (fun t : HubSession => (⟨t.sid, t.queue, t.closeCount + 1⟩ : HubSession))
        hsmem
      simpa [hclose s hreg] using hmm
    · intro evs hnr
      exact hub_absent_run _ evs s.sid hnotsid hnr

set_option maxRecDepth 8192 in
/-- C2 witness: broadcasting over a hub with one full and one draining
session closes and evicts the full one (close count exactly 1) and
delivers to the other. -/
theorem broadcast_backpressure_witness :
    (⟨sFull.sid, sFull.queue, 1⟩ : HubSession)
      ∈ (hubStep hubTwo (.broadcast "p")).removed ∧
    (⟨sRoom.sid, sRoom.queue ++ ["p"], sRoom.closeCount⟩ : HubSession)
      ∈ (hubStep hubTwo (.broadcast "p")).registry :=
  ⟨((broadcast_backpressure hubTwo "p" sFull (by decide) (by decide)
      (by decide)).2 (by decide)).2.1,
   (broadcast_backpressure hubTwo "p" sRoom (by decide) (by decide)
      (by decide)).1 (by decide)⟩

/-- Every single hub event preserves the no-duplicate-sid invariant of
the registry. -/
lemma hubStep_sid_nodup (h : HubState) (e : HubEvent)
    (hn : (h.registry.map HubSession.sid).Nodup) :
    ((hubStep h e).registry.map HubSession.sid).Nodup := by
  cases e with
    | register sid =>
      by_cases hp : h.registry.any (fun s => s.sid == sid) = true
      · simp only [hubStep, hp, if_true]
        rw [map_sid_of_preserve]
        · exact hn
        · intro s
          by_cases hs : (s.sid == sid) = true <;> simp [hs]
      · simp only [hubStep, hp, Bool.false_eq_true, if_false]
        rw [List.map_append, List.nodup_append]
        refine ⟨hn, List.nodup_singleton _, ?_⟩
        intro a ha hb
        simp only [List.map_cons, List.map_nil, List.mem_singleton] at hb
        rcases List.mem_map.mp ha with ⟨y, hy, hya⟩
        exact hp (List.any_eq_true.mpr ⟨y, hy, by simp [hya, hb]⟩)
    | unregister sid =>
      rcases hf : h.registry.find? (fun s => s.sid == sid) with _ | s
      · simpa only [hubStep, hf] using hn
      · simp only [hubStep, hf]
        exact List.Nodup.sublist
          ((List.filter_sublist h.registry).map HubSession.sid) hn
    | broadcast payload =>
      simp only [hubStep]
      rw [map_sid_of_preserve]
      · exact List.Nodup.sublist
          ((List.filter_sublist h.registry).map HubSession.sid) hn
      · intro s
        rfl

/-- C4: starting from the empty hub, no request sequence ever produces a
duplicate session in the registry; every single event preserves that
invariant; registering an already-present session leaves the sid list
unchanged (no duplicate is added); unregistering an absent session is a
complete no-op (in particular no queue is closed); and unregistering
twice equals unregistering once (the queue is not closed a second
time). -/
theorem hub_no_duplicates_unregister_idempotent :
    (∀ evs : List HubEvent,
       ((hubRun hubInit evs).registry.map HubSession.sid).Nodup) ∧
    (∀ (h : HubState) (e : HubEvent), (h.registry.map HubSession.sid).Nodup →
       ((hubStep h e).registry.map HubSession.sid).Nodup) ∧
    (∀ (h : HubState) (sid : Nat),
       h.registry.any (fun s => s.sid == sid) = true →
       (hubStep h (.register sid)).registry.map HubSession.sid
         = h.registry.map HubSession.sid) ∧
    (∀ (h : HubState) (sid : Nat), (∀ t ∈ h.registry, t.sid ≠ sid) →
       hubStep h (.unregister sid) = h) ∧
    (∀ (h : HubState) (sid : Nat),
       hubStep (hubStep h (.unregister sid)) (.unregister sid)
         = hubStep h (.unregister sid)) := by
  refine ⟨?_, hubStep_sid_nodup, ?_, ?_, ?_⟩
  · have hgen : ∀ (evs : List HubEvent) (h : HubState),
        (h.registry.map HubSession.sid).Nodup →
        ((hubRun h evs).registry.map HubSession.sid).Nodup := by
      intro evs
      induction evs with
      | nil => exact fun h hn => hn
      | cons e rest ih => exact fun h hn => ih (hubStep h e) (hubStep_sid_nodup h e hn)
    exact fun evs => hgen evs hubInit (by simp [hubInit])
  · intro h sid hp
    simp only [hubStep, hp, if_true]
    apply map_sid_of_preserve
    intro s
    by_cases hs : (s.sid == sid) = true <;> simp [hs]
  · intro h sid hall
    have hf : h.registry.find? (fun s => s.sid == sid) = none :=
      List.find?_eq_none.mpr (fun x hx => by simpa using hall x hx)
    simp [hubStep, hf]
  · intro h sid
    rcases hf : h.registry.find? (fun s => s.sid == sid) with _ | s
    · have h1 : hubStep h (.unregister sid) = h := by simp [hubStep, hf]
      rw [h1]
      exact h1
    · have h2 : ((h.registry.filter (fun x => !(x.sid == sid))).find?
          (fun s => s.sid == sid)) = none := by
        apply List.find?_eq_none.mpr
        intro x hx
        have hxf := List.of_mem_filter hx
        simp only [Bool.not_eq_true'] at hxf
        simp [hxf]
      simp [hubStep, hf, h2]

/-- C4 witness: on a concrete hub, registering a present session keeps
the sid list duplicate-free and unchanged, unregistering an absent
session is a no-op, and a second unregister of the same session changes
nothing further. -/
theorem hub_no_duplicates_unregister_idempotent_witness :
    ((hubStep hubTwo (.register 1)).registry.map HubSession.sid).Nodup ∧
    (hubStep hubTwo (.register 1)).registry.map HubSession.sid
      = hubTwo.registry.map HubSession.sid ∧
    hubStep hubTwo (.unregister 5) = hubTwo ∧
    hubStep (hubStep hubTwo (.unregister 1)) (.unregister 1)
      = hubStep hubTwo (.unregister 1) :=
  ⟨hub_no_duplicates_unregister_idempotent.2.1 hubTwo (.register 1) (by decide),
   hub_no_duplicates_unregister_idempotent.2.2.1 hubTwo 1 (by decide),
   hub_no_duplicates_unregister_idempotent.2.2.2.1 hubTwo 5 (by decide),
   hub_no_duplicates_unregister_idempotent.2.2.2.2 hubTwo 1⟩

end MMServer
